import Mathlib

/-!
Shallow embedding of the request-handling pipeline of a small HTTP file
server written in Rust (`src/main.rs`).  Rust strings are modelled as Lean
`String`; the connection's byte stream after the first buffer read is a
`List Char` (the requests of interest are ASCII, where Rust's byte length
and the character count agree).  The filesystem and the operating system's
process spawning, which the source reaches through `std::fs` and
`tokio::process`, are modelled as an explicit record of query functions.
-/

namespace RustyWeb

/-- ASCII restriction of Rust `char::is_whitespace`, the characters that
`str::split_whitespace` meets in HTTP request lines. -/
def isWS (c : Char) : Bool := c = ' ' || c = '\t' || c = '\r' || c = '\n'

/-- Split a list at every element satisfying `p`, keeping empty pieces,
mirroring Rust `str::split`. -/
def splitOnPred (p : Char → Bool) : List Char → List (List Char)
  | [] => [[]]
  | c :: cs =>
    let r := splitOnPred p cs
    if p c then [] :: r
    else
      match r with
      | [] => [[c]]
      | h :: t => (c :: h) :: t

def splitOnChar (c : Char) (l : List Char) : List (List Char) :=
  splitOnPred (fun x => x = c) l

/-- Strip one trailing carriage return, as Rust `str::lines` does for each
line. -/
def stripCR (l : List Char) : List Char :=
  if l.getLast? = some '\r' then l.dropLast else l

/-- Rust `str::lines`: split at newlines, with the final line terminator
optional and a trailing carriage return removed from every line. -/
def rustLines (s : String) : List String :=
  if s.data = [] then []
  else
    let pieces := splitOnChar '\n' s.data
    let pieces := if s.data.getLast? = some '\n' then pieces.dropLast else pieces
    pieces.map (fun l => String.mk (stripCR l))

/-- Rust `str::split_whitespace`. -/
def splitWS (s : String) : List String :=
  ((splitOnPred isWS s.data).map String.mk).filter (fun t => t ≠ "")

/-- Rust `str::split_once` on a character pattern. -/
def splitOnceCL (c : Char) : List Char → Option (List Char × List Char)
  | [] => none
  | x :: xs =>
    if x = c then some ([], xs)
    else (splitOnceCL c xs).map (fun q => (x :: q.1, q.2))

def splitOnce (c : Char) (s : String) : Option (String × String) :=
  (splitOnceCL c s.data).map (fun q => (String.mk q.1, String.mk q.2))

/-- Rust `str::trim` (ASCII whitespace). -/
def trimS (s : String) : String :=
  String.mk (((s.data.dropWhile isWS).reverse.dropWhile isWS).reverse)

/-- Boolean test that the first list is an initial segment of the second. -/
def isPreOf {α : Type} [DecidableEq α] : List α → List α → Bool
  | [], _ => true
  | _ :: _, [] => false
  | a :: as, b :: bs => if a = b then isPreOf as bs else false

/-- Boolean test that the first list occurs contiguously inside the
second. -/
def isSubOf {α : Type} [DecidableEq α] (p : List α) : List α → Bool
  | [] => decide (p = [])
  | a :: t => isPreOf p (a :: t) || isSubOf p t

/-- Rust `str::contains` for a literal pattern. -/
def strContains (s pat : String) : Bool := isSubOf pat.data s.data

/-- The normal components of a Rust `Path`: `Components` drops separators
and `.` segments and keeps `..` segments. -/
def pathComponents (s : String) : List String :=
  ((splitOnChar '/' s.data).map String.mk).filter (fun c => c ≠ "" && c ≠ ".")

/-- Rust `Path::starts_with` (component-wise). -/
def pathStartsWith (p q : String) : Bool :=
  isPreOf (pathComponents q) (pathComponents p)

/-- Rust `Path::file_name`: the last component, or none when the path ends
in `..` or has no component. -/
def fileName (s : String) : Option String :=
  match (pathComponents s).getLast? with
  | none => none
  | some c => if c = ".." then none else some c

/-- Rust `PathBuf::join` for the relative right operands the server
produces (it strips the leading slashes of the request path before
joining). -/
def pathJoin (base p : String) : String := base ++ "/" ++ p

/-- Rust `Path::parent().ends_with(pat)` (component-wise suffix of the
path without its final component). -/
def parentEndsWith (s pat : String) : Bool :=
  match pathComponents s with
  | [] => false
  | l => isPreOf (pathComponents pat).reverse l.dropLast.reverse

/-- Rust `Path::extension().and_then(to_str)`: the text after the last dot
of the file name, none when there is no dot or only a leading one. -/
def extension (p : String) : Option String :=
  match fileName p with
  | none => none
  | some n =>
    let rev := n.data.reverse
    let ex := rev.takeWhile (fun c => c ≠ '.')
    if ex.length = rev.length then none
    else if rev.drop ex.length = ['.'] then none
    else some (String.mk ex.reverse)

/-- `get_mime_type` of the source: extension to content-type table with
`application/octet-stream` for everything else. -/
def get_mime_type (p : String) : String :=
  match extension p with
  | some "txt" => "text/plain; charset=utf-8"
  | some "html" => "text/html; charset=utf-8"
  | some "css" => "text/css; charset=utf-8"
  | some "js" => "text/javascript; charset=utf-8"
  | some "jpg" => "image/jpeg"
  | some "jpeg" => "image/jpeg"
  | some "png" => "image/png"
  | some "zip" => "application/zip"
  | _ => "application/octet-stream"

/-- One child of a directory as `fs::read_dir` yields it.  The source
never queries the file type of an entry, so `isDir` is carried but unused
by the listing. -/
structure DirEntry where
  name : String
  isDir : Bool
deriving DecidableEq

/-- Captured output of a child process (`tokio::process::Command::output`):
exit status, stdout and stderr after lossy UTF-8 decoding. -/
structure ProcessOutput where
  success : Bool
  stdout : String
  stderr : String
deriving DecidableEq

/-- The filesystem and process layer the server consults.  `canonicalize`
is none when `fs::canonicalize` fails, `readFile`/`readDir` are none on an
I/O error, and `runScript` is none when the spawn itself fails. -/
structure FS where
  exists_ : String → Bool
  isDir : String → Bool
  isFile : String → Bool
  canonicalize : String → Option String
  readFile : String → Option String
  readDir : String → Option (List DirEntry)
  runScript : String → Option ProcessOutput

def forbiddenPatterns : List String :=
  ["forbidden", "restricted_area.txt", "scripts/../"]

/-- `s.starts_with('.')` on a file name. -/
def startsWithDot (s : String) : Bool :=
  match s.data with
  | c :: _ => c = '.'
  | [] => false

/-- `is_forbidden_file` of the source: canonicalize (err means forbidden)
and require the root as prefix; then the substring patterns on the raw
path; then hidden names; then the parent's component suffix against the
same patterns. -/
def is_forbidden_file (fs : FS) (file_path root_folder : String) : Bool :=
  match fs.canonicalize file_path with
  | none => true
  | some canonical_path =>
    if !pathStartsWith canonical_path root_folder then true
    else if forbiddenPatterns.any (fun pat => strContains file_path pat) then true
    else if (match fileName file_path with
             | some n => startsWithDot n
             | none => false) then true
    else if forbiddenPatterns.any (fun pat => parentEndsWith file_path pat) then true
    else false

/-- `response_headers.join("\r\n")` and the other separator joins. -/
def joinSep (sep : String) : List String → String
  | [] => ""
  | [x] => x
  | x :: y :: xs => x ++ sep ++ joinSep sep (y :: xs)

/-- The header lines `execute_script` takes from the script's stdout:
every line before the first empty line. -/
def execHeaderLines (stdout : String) : List String :=
  (rustLines stdout).takeWhile (fun l => l ≠ "")

/-- Rust `stdout.find("\n\n")`: index of the first occurrence. -/
def findNN : List Char → Option Nat
  | [] => none
  | c :: rest =>
    if c = '\n' ∧ rest.head? = some '\n' then some 0
    else (findNN rest).map (fun i => i + 1)

/-- The body `execute_script` slices from the script's stdout:
`&stdout[stdout.find("\n\n").unwrap_or(0) + 2..]`.  `none` models the
panic of an out-of-bounds slice (stdout shorter than two bytes with no
blank line). -/
def execBody (stdout : String) : Option String :=
  let bodyStart := (findNN stdout.data).getD 0 + 2
  if bodyStart ≤ stdout.data.length then some (String.mk (stdout.data.drop bodyStart))
  else none

/-- Status mapping and response assembly of `execute_script` once the
child has exited: the status from the exit code, then the status line,
`Connection: close`, the script's own header lines, and the body. -/
def scriptResponse (http_version : String) (out : ProcessOutput) :
    Option (String × String × String) :=
  let status_code := if out.success then "200" else "500"
  let status_text := if out.success then "OK" else "Internal Server Error"
  let hdrs := [http_version ++ " " ++ status_code ++ " " ++ status_text,
               "Connection: close"] ++ execHeaderLines out.stdout
  match execBody out.stdout with
  | some body => some (status_code, status_text, joinSep "\r\n" hdrs ++ "\r\n\r\n" ++ body)
  | none => none

/-- `send_response` of the source: one formatted write carrying
`Content-Type`, `Content-Length` (the body's byte length) and
`Connection: close`. -/
def send_response (http_version status_code status_text content_type body : String) : String :=
  http_version ++ " " ++ status_code ++ " " ++ status_text ++
    "\r\nContent-Type: " ++ content_type ++
    "\r\nContent-Length: " ++ toString body.length ++
    "\r\nConnection: close\r\n\r\n" ++ body

/-- The header block the static-file branch writes before the raw file
contents. -/
def static_header (http_version mime : String) (len : Nat) : String :=
  http_version ++ " 200 OK\r\nContent-Type: " ++ mime ++
    "\r\nContent-Length: " ++ toString len ++ "\r\nConnection: close\r\n\r\n"

/-- `Path::strip_prefix(root)` rendered by `display()`, with
`unwrap_or(&path)` falling back to the full path. -/
def stripRootRel (p root : String) : String :=
  if isPreOf (pathComponents root) (pathComponents p) then
    joinSep "/" ((pathComponents p).drop (pathComponents root).length)
  else p

/-- `generate_directory_listing` of the source: one `<li><a>` item per
`read_dir` entry, href the root-relative path, text the entry name (for a
`read_dir` entry, `path().file_name()` is the entry's own name). -/
def generate_directory_listing (entries : List DirEntry) (dirPath root : String) : String :=
  (entries.foldl (fun html e =>
      html ++ "<li><a href=\"" ++ stripRootRel (pathJoin dirPath e.name) root ++ "\">" ++
        e.name ++ "</a></li>")
    "<html><body><h1>Directory listing</h1><ul>") ++ "</ul></body></html>"

/-- `HashMap::insert` modelled on an association list: replace the
existing binding or append a new one. -/
def insertKV (m : List (String × String)) (k v : String) : List (String × String) :=
  match m with
  | [] => [(k, v)]
  | (k', v') :: rest => if k' = k then (k, v) :: rest else (k', v') :: insertKV rest k v

/-- `HashMap::get` on the association-list model. -/
def lookupKV (m : List (String × String)) (k : String) : Option String :=
  match m with
  | [] => none
  | (k', v) :: rest => if k' = k then some v else lookupKV rest k

/-- Header collection of `handle_request`: each line after the request
line split once at `:`, both sides trimmed, malformed lines ignored. -/
def parseHeaders (hdrLines : List String) : List (String × String) :=
  hdrLines.foldl (fun m line =>
    match splitOnce ':' line with
    | some (k, v) => insertKV m (trimS k) (trimS v)
    | none => m) []

/-- Rust `str::parse::<usize>` restricted to plain digit strings. -/
def parseUsize (s : String) : Option Nat :=
  if s.data.isEmpty then none
  else if s.data.all (fun c => c.isDigit) then
    some (s.data.foldl (fun a c => a * 10 + (c.toNat - 48)) 0)
  else none

/-- The Content-Length a POST body read uses: parsed from the headers,
`unwrap_or(0)`, default `0` when the header is absent. -/
def contentLengthOf (headers : List (String × String)) : Nat :=
  match lookupKV headers "Content-Length" with
  | some v => (parseUsize v).getD 0
  | none => 0

/-- Bytes one `read_exact` of the body consumes: the Content-Length for a
POST, nothing otherwise. -/
def clOf (method : String) (hdrLines : List String) : Nat :=
  if method = "POST" then contentLengthOf (parseHeaders hdrLines) else 0

/-- Split the request target at the first `?` into path and optional query
string (`full_path.find('?')`). -/
def splitTargetQ (full_path : String) : String × Option String :=
  match splitOnce '?' full_path with
  | some (p, q) => (p, some q)
  | none => (full_path, none)

def reqPathOf (full_path : String) : String := (splitTargetQ full_path).1

def queryOf (full_path : String) : Option String := (splitTargetQ full_path).2

def dropLeadingSlashes (s : String) : String :=
  String.mk (s.data.dropWhile (fun c => c = '/'))

/-- `root_folder.join(requested_path.trim_start_matches('/'))`. -/
def filePathOf (root full_path : String) : String :=
  pathJoin root (dropLeadingSlashes (reqPathOf full_path))

/-- Parse one `key=value&...` string into `Query_<key>` environment
entries (`split('&')` then `split_once('=')`, pairs without `=` skipped). -/
def addQueryVars (m : List (String × String)) (s : String) : List (String × String) :=
  ((splitOnChar '&' s.data).map String.mk).foldl (fun acc param =>
    match splitOnce '=' param with
    | some (k, v) => insertKV acc ("Query_" ++ k) v
    | none => acc) m

/-- The environment `execute_script` builds: every request header under
its own name, `Method`, `Path`, then `Query_` entries from the query
string, from the POST data when the method is POST, and from the POST data
once more unconditionally. -/
def buildEnvVars (headers : List (String × String)) (method requested_path : String)
    (query_string combined_query : Option String) : List (String × String) :=
  let e := headers.foldl (fun acc kv => insertKV acc kv.1 kv.2) []
  let e := insertKV e "Method" method
  let e := insertKV e "Path" requested_path
  let e := match query_string with
           | some q => addQueryVars e q
           | none => e
  let e := if method = "POST" then
             match combined_query with
             | some d => addQueryVars e d
             | none => e
           else e
  match combined_query with
  | some q => addQueryVars e q
  | none => e

/-- The child-process invocation `execute_script` assembles:
`Command::new(&script_path)`, the environment loop, then
`command.output()`.  `Command::output` gives the child a null standard
input and the source never configures or writes that stream, so the
invocation carries no stdin payload. -/
structure ScriptCommand where
  program : String
  env : List (String × String)
  stdinPayload : Option String
deriving DecidableEq

def build_script_command (script_path method requested_path : String)
    (headers : List (String × String)) (query_string post_data : Option String) :
    ScriptCommand :=
  { program := script_path
    env := buildEnvVars headers method requested_path query_string post_data
    stdinPayload := none }

/-- One access-log line (`log_connection`); the peer address is an
environment effect outside the model. -/
structure LogLine where
  method : String
  path : String
  code : String
  text : String
deriving DecidableEq

/-- Observable outcome of one connection: the chunks written to the
stream in order, the log lines emitted, the bytes consumed from the stream
after the first buffer read, whether an I/O error aborted the handler, and
whether it panicked. -/
structure HandleResult where
  written : List String
  logged : List LogLine
  consumed : Nat
  ioError : Bool
  panicked : Bool
deriving DecidableEq

def okResult (w : List String) (lg : List LogLine) (c : Nat) : HandleResult :=
  ⟨w, lg, c, false, false⟩

/-- The body of `handle_request` after the request line has been parsed
into method, target and version: header parse, the first POST body
`read_exact`, the existence check (404), the forbidden check (403), the
second POST body `read_exact`, and the GET/POST dispatch with the 405
fallback.  The parsed body only feeds the script environment (embedded as
`build_script_command`); the process outcome itself comes from
`FS.runScript`. -/
def handle_parsed (fs : FS) (root method full_path http_version : String)
    (hdrLines : List String) (rest : List Char) : HandleResult :=
  if method = "POST" ∧ rest.length < clOf method hdrLines then
    ⟨[], [], rest.length, true, false⟩
  else if fs.exists_ (filePathOf root full_path) = false then
    okResult
      [send_response http_version "404" "Not Found" "text/plain" "<html>404 Not Found</html>"]
      [⟨method, reqPathOf full_path, "404", "Not Found"⟩] (clOf method hdrLines)
  else if is_forbidden_file fs (filePathOf root full_path) root then
    okResult
      [send_response http_version "403" "Forbidden" "text/plain; charset=utf-8"
        "<html>403 Forbidden</html>"]
      [⟨method, reqPathOf full_path, "403", "Forbidden"⟩] (clOf method hdrLines)
  else if method = "POST" ∧ (rest.drop (clOf method hdrLines)).length < clOf method hdrLines then
    ⟨[], [], rest.length, true, false⟩
  else if method = "GET" ∨ method = "POST" then
    if pathStartsWith (filePathOf root full_path) (pathJoin root "forbidden") then
      okResult
        [send_response http_version "403" "Forbidden" "text/plain; charset=utf-8"
          "<html>403 Forbidden</html>"]
        [⟨method, reqPathOf full_path, "403", "Forbidden"⟩]
        (clOf method hdrLines + clOf method hdrLines)
    else if pathStartsWith (filePathOf root full_path) (pathJoin root "scripts") ∧
        fs.isFile (filePathOf root full_path) then
      match fs.runScript (filePathOf root full_path) with
      | none =>
        okResult
          [send_response http_version "500" "Internal Server Error" "text/plain"
            "<html>500 Internal Server Error</html>"]
          [⟨method, reqPathOf full_path, "500", "Internal Server Error"⟩]
          (clOf method hdrLines + clOf method hdrLines)
      | some out =>
        match scriptResponse http_version out with
        | none => ⟨[], [], clOf method hdrLines + clOf method hdrLines, false, true⟩
        | some (code, text, resp) =>
          okResult [resp] [⟨method, reqPathOf full_path, code, text⟩]
            (clOf method hdrLines + clOf method hdrLines)
    else if fs.isDir (filePathOf root full_path) then
      match fs.readDir (filePathOf root full_path) with
      | some entries =>
        okResult
          [send_response http_version "200" "OK" "text/html; charset=utf-8"
            (generate_directory_listing entries (filePathOf root full_path) root)]
          [⟨method, reqPathOf full_path, "200", "OK"⟩]
          (clOf method hdrLines + clOf method hdrLines)
      | none =>
        okResult
          [send_response http_version "500" "Internal Server Error" "text/plain"
            "<html>500 Internal Server Error</html>"]
          [⟨method, reqPathOf full_path, "500", "Internal Server Error"⟩]
          (clOf method hdrLines + clOf method hdrLines)
    else if fs.exists_ (filePathOf root full_path) ∧ fs.isFile (filePathOf root full_path) then
      match fs.readFile (filePathOf root full_path) with
      | some contents =>
        okResult
          [static_header http_version (get_mime_type (filePathOf root full_path))
            contents.length, contents]
          [⟨method, reqPathOf full_path, "200", "OK"⟩]
          (clOf method hdrLines + clOf method hdrLines)
      | none =>
        okResult
          [send_response http_version "404" "Not Found" "text/plain"
            "<html>404 Not Found</html>"]
          [⟨method, reqPathOf full_path, "404", "Not Found"⟩]
          (clOf method hdrLines + clOf method hdrLines)
    else
      okResult
        [send_response http_version "404" "Not Found" "text/plain" "<html>404 Not Found</html>"]
        [⟨method, reqPathOf full_path, "404", "Not Found"⟩]
        (clOf method hdrLines + clOf method hdrLines)
  else
    okResult
      [send_response http_version "405" "Method Not Allowed" "text/plain"
        "<html>405 Method Not Allowed</html>"]
      [⟨method, reqPathOf full_path, "405", "Method Not Allowed"⟩]
      (clOf method hdrLines + clOf method hdrLines)

/-- `handle_request` from the first socket read: a zero-byte read, an
empty line list (which is what an invalid UTF-8 buffer decays to through
`unwrap_or("")`), or a request line of fewer than three tokens all return
silently; otherwise the parsed request is dispatched.  `decoded` is the
`str::from_utf8` result on the first buffer, `none` for invalid UTF-8. -/
def handle_request (fs : FS) (root : String) (firstReadLen : Nat)
    (decoded : Option String) (rest : List Char) : HandleResult :=
  if firstReadLen = 0 then ⟨[], [], 0, false, false⟩
  else
    match rustLines (decoded.getD "") with
    | [] => ⟨[], [], 0, false, false⟩
    | l0 :: hdrLines =>
      if (splitWS l0).length < 3 then ⟨[], [], 0, false, false⟩
      else
        handle_parsed fs root ((splitWS l0).getD 0 "") ((splitWS l0).getD 1 "")
          ((splitWS l0).getD 2 "") hdrLines rest

/-! ## Basic lemmas about the string utilities -/

theorem strDataInj (a b : String) (h : a.data = b.data) : a = b := by
  cases a; cases b; cases h; rfl

theorem dataAppend (a b : String) : (a ++ b).data = a.data ++ b.data := rfl

theorem strAssoc (a b c : String) : (a ++ b) ++ c = a ++ (b ++ c) :=
  strDataInj _ _ (List.append_assoc a.data b.data c.data)

theorem strAppendNil (s : String) : s ++ "" = s :=
  strDataInj _ _ (List.append_nil s.data)

theorem pre_refl {α : Type} [DecidableEq α] (l : List α) : isPreOf l l = true := by
  induction l with
  | nil => rfl
  | cons a t ih => simp [isPreOf, ih]

theorem pre_append {α : Type} [DecidableEq α] {p l : List α} (y : List α)
    (h : isPreOf p l = true) : isPreOf p (l ++ y) = true := by
  induction p generalizing l with
  | nil => rfl
  | cons a as ih =>
    cases l with
    | nil => simp [isPreOf] at h
    | cons b bs =>
      simp only [isPreOf, List.cons_append] at h ⊢
      split at h
      case isTrue hab => rw [if_pos hab]; exact ih h
      case isFalse => simp at h

theorem pre_append_cancel {α : Type} [DecidableEq α] {p c : List α} (a : List α)
    (h : isPreOf p c = true) : isPreOf (a ++ p) (a ++ c) = true := by
  induction a with
  | nil => simpa using h
  | cons x a' ih => simp [isPreOf, ih]

theorem pre_to_sub {α : Type} [DecidableEq α] {p l : List α}
    (h : isPreOf p l = true) : isSubOf p l = true := by
  cases l with
  | nil =>
    cases p with
    | nil => rfl
    | cons a as => simp [isPreOf] at h
  | cons a t => simp [isSubOf, h]

theorem sub_cons {α : Type} [DecidableEq α] {p t : List α} (a : α)
    (h : isSubOf p t = true) : isSubOf p (a :: t) = true := by
  simp [isSubOf, h]

theorem sub_nil_pat {α : Type} [DecidableEq α] (l : List α) : isSubOf ([] : List α) l = true := by
  cases l with
  | nil => rfl
  | cons a t => simp [isSubOf, isPreOf]

theorem sub_append_right {α : Type} [DecidableEq α] {p l : List α} (x : List α)
    (h : isSubOf p l = true) : isSubOf p (x ++ l) = true := by
  induction x with
  | nil => simpa using h
  | cons c x' ih => exact sub_cons c ih

theorem sub_append_left {α : Type} [DecidableEq α] {p l : List α} (y : List α)
    (h : isSubOf p l = true) : isSubOf p (l ++ y) = true := by
  induction l with
  | nil =>
    have : p = [] := by simpa [isSubOf] using h
    subst this
    exact sub_nil_pat y
  | cons a t ih =>
    simp only [isSubOf, Bool.or_eq_true] at h
    rcases h with h | h
    · exact pre_to_sub (by simpa using pre_append y h)
    · exact sub_cons a (ih h)

theorem sub_refl {α : Type} [DecidableEq α] (l : List α) : isSubOf l l = true :=
  pre_to_sub (pre_refl l)

theorem strContains_append_left {a : String} (b : String) {p : String}
    (h : strContains a p = true) : strContains (a ++ b) p = true :=
  sub_append_left b.data h

theorem strContains_append_right (a : String) {b p : String}
    (h : strContains b p = true) : strContains (a ++ b) p = true :=
  sub_append_right a.data h

theorem strContains_refl (p : String) : strContains p p = true :=
  sub_refl p.data

theorem joinSep_head_contains (sep x : String) (l : List String) :
    strContains (joinSep sep (x :: l)) x = true := by
  cases l with
  | nil => exact strContains_refl x
  | cons y ys =>
    show strContains ((x ++ sep) ++ joinSep sep (y :: ys)) x = true
    exact strContains_append_left _ (strContains_append_left _ (strContains_refl x))

/-! ## Header invariants of the response builders -/

theorem send_response_contains_close (v c t ct b : String) :
    strContains (send_response v c t ct b) "Connection: close" = true := by
  unfold send_response
  exact strContains_append_left _ (strContains_append_right _ (by decide))

theorem static_header_contains_close (v mime : String) (len : Nat) :
    strContains (static_header v mime len) "Connection: close" = true := by
  unfold static_header
  exact strContains_append_right _ (by decide)

theorem send_response_contains_len (v c t ct b : String) :
    strContains (send_response v c t ct b)
      ("Content-Length: " ++ toString b.length ++ "\r\n") = true := by
  have h1 : ("\r\nContent-Length: " : String) = "\r\n" ++ "Content-Length: " := by decide
  have h2 : ("\r\nConnection: close\r\n\r\n" : String) =
      "\r\n" ++ "Connection: close\r\n\r\n" := by decide
  unfold send_response strContains
  rw [h1, h2]
  simp only [dataAppend, List.append_assoc]
  apply sub_append_right
  apply sub_append_right
  apply sub_append_right
  apply sub_append_right
  apply sub_append_right
  apply sub_append_right
  apply sub_append_right
  apply sub_append_right
  apply pre_to_sub
  apply pre_append_cancel
  apply pre_append_cancel
  exact pre_append _ (pre_refl _)

theorem scriptResponse_contains_close {v : String} {out : ProcessOutput}
    {c t r : String} (h : scriptResponse v out = some (c, t, r)) :
    strContains r "Connection: close" = true := by
  unfold scriptResponse at h
  cases hb : execBody out.stdout with
  | none => rw [hb] at h; simp at h
  | some body =>
    rw [hb] at h
    simp only [Option.some.injEq, Prod.mk.injEq] at h
    obtain ⟨-, -, hr⟩ := h
    subst hr
    apply strContains_append_left
    apply strContains_append_left
    show strContains ((_ ++ "\r\n") ++ joinSep "\r\n" ("Connection: close" :: _)) _ = true
    exact strContains_append_right _ (joinSep_head_contains _ _ _)

/-! ## Lemmas about the environment map -/

theorem lookup_insert_self (m : List (String × String)) (k v : String) :
    lookupKV (insertKV m k v) k = some v := by
  induction m with
  | nil => simp [insertKV, lookupKV]
  | cons kv rest ih =>
    obtain ⟨k', v'⟩ := kv
    by_cases h : k' = k
    · simp [insertKV, lookupKV, h]
    · simp [insertKV, lookupKV, h, ih]

theorem lookup_insert_ne (m : List (String × String)) (k v k' : String) (h : k ≠ k') :
    lookupKV (insertKV m k v) k' = lookupKV m k' := by
  induction m with
  | nil => simp [insertKV, lookupKV, h]
  | cons kv rest ih =>
    obtain ⟨k0, v0⟩ := kv
    by_cases h0 : k0 = k
    · subst h0; simp [insertKV, lookupKV, h]
    · by_cases h1 : k0 = k'
      · subst h1
        simp [insertKV, lookupKV, h0]
      · simp [insertKV, lookupKV, h0, h1, ih]

/-! ## Concrete filesystems used for counterexamples and witnesses -/

/-- A filesystem on which nothing exists and every canonicalization
fails (as `fs::canonicalize` does on any missing path). -/
def fsAllMissing : FS :=
  ⟨fun _ => false, fun _ => false, fun _ => false,
   fun _ => none, fun _ => none, fun _ => none, fun _ => none⟩

/-- A filesystem on which every path is an existing regular file with
content `"hi"` and canonicalization the identity. -/
def fsStaticFile : FS :=
  ⟨fun _ => true, fun _ => false, fun _ => true,
   fun p => some p, fun _ => some "hi", fun _ => none, fun _ => none⟩

/-- A filesystem whose scripts run and exit nonzero with stdout
`"X: 1\n\nOUT"` and stderr `"ERR"`. -/
def fsScriptErr : FS :=
  ⟨fun _ => true, fun _ => false, fun _ => true,
   fun p => some p, fun _ => none, fun _ => none,
   fun _ => some ⟨false, "X: 1\n\nOUT", "ERR"⟩⟩

/-- A filesystem on which paths exist but canonicalize outside the root
(a symlink whose target lies elsewhere). -/
def fsSymlinkOut : FS :=
  ⟨fun _ => true, fun _ => false, fun _ => false,
   fun _ => some "/etc/target", fun _ => none, fun _ => none, fun _ => none⟩

/-! ## Claim C1: forbidden versus missing in the dispatch order -/

/-- C1 counterexample: the request `GET /forbidden/x` matches the
forbidden rule (the guard classifies the joined path as forbidden), yet
because the target does not exist the server answers 404 Not Found, not
403 — the existence check runs first, so the 403 outcome does depend on
whether the target exists. -/
theorem c1_counterexample :
    (handle_parsed fsAllMissing "/srv" "GET" "/forbidden/x" "HTTP/1.0" [] []).logged =
      [⟨"GET", "/forbidden/x", "404", "Not Found"⟩] ∧
    is_forbidden_file fsAllMissing (filePathOf "/srv" "/forbidden/x") "/srv" = true ∧
    ("404" : String) ≠ "403" := by decide

/-- C1 amended: the dispatch decides Missing (404) before Forbidden
(403); only a request whose joined path exists and is classified
forbidden is answered 403 (with the POST body read succeeding first). -/
theorem c1_amended (fs : FS) (root method full_path http_version : String)
    (hdrLines : List String) (rest : List Char)
    (hex : fs.exists_ (filePathOf root full_path) = true)
    (hforb : is_forbidden_file fs (filePathOf root full_path) root = true)
    (hbody : method = "POST" → clOf method hdrLines ≤ rest.length) :
    handle_parsed fs root method full_path http_version hdrLines rest =
      okResult
        [send_response http_version "403" "Forbidden" "text/plain; charset=utf-8"
          "<html>403 Forbidden</html>"]
        [⟨method, reqPathOf full_path, "403", "Forbidden"⟩] (clOf method hdrLines) := by
  have h1 : ¬(method = "POST" ∧ rest.length < clOf method hdrLines) := by
    rintro ⟨hm, hlt⟩
    exact absurd (hbody hm) (by omega)
  have h2 : ¬(fs.exists_ (filePathOf root full_path) = false) := by simp [hex]
  unfold handle_parsed
  rw [if_neg h1, if_neg h2, if_pos hforb]

/-- C1 witness: a path that exists but canonicalizes outside the root (a
symlink out of the tree) is answered 403. -/
theorem c1_witness :
    handle_parsed fsSymlinkOut "/srv" "GET" "/link" "HTTP/1.0" [] [] =
      okResult
        [send_response "HTTP/1.0" "403" "Forbidden" "text/plain; charset=utf-8"
          "<html>403 Forbidden</html>"]
        [⟨"GET", "/link", "403", "Forbidden"⟩] (clOf "GET" []) :=
  c1_amended fsSymlinkOut "/srv" "GET" "/link" "HTTP/1.0" [] []
    (by decide) (by decide) (by decide)

/-! ## Claim C2: failed script exit and the response body -/

/-- C2 counterexample: a script exiting nonzero with stderr `"ERR"` is
answered 500 whose body comes from stdout; the stderr bytes appear
nowhere in the response. -/
theorem c2_counterexample :
    fsScriptErr.runScript "/srv/scripts/t.sh" = some ⟨false, "X: 1\n\nOUT", "ERR"⟩ ∧
    (handle_parsed fsScriptErr "/srv" "GET" "/scripts/t.sh" "HTTP/1.0" [] []).written =
      ["HTTP/1.0 500 Internal Server Error\r\nConnection: close\r\nX: 1\r\n\r\nOUT"] ∧
    (handle_parsed fsScriptErr "/srv" "GET" "/scripts/t.sh" "HTTP/1.0" [] []).logged =
      [⟨"GET", "/scripts/t.sh", "500", "Internal Server Error"⟩] ∧
    strContains "HTTP/1.0 500 Internal Server Error\r\nConnection: close\r\nX: 1\r\n\r\nOUT"
      "ERR" = false := by decide

/-- C2 amended: exit code 0 maps to 200 OK and nonzero exit to 500
Internal Server Error, but in both cases the response (headers and body)
is parsed from the process's stdout; the stderr stream never influences
the response. -/
theorem c2_amended (v : String) (s : Bool) (o e e' : String) :
    scriptResponse v ⟨s, o, e⟩ = scriptResponse v ⟨s, o, e'⟩ ∧
    (∀ c t r, scriptResponse v ⟨s, o, e⟩ = some (c, t, r) →
      c = (if s then "200" else "500") ∧
      t = (if s then "OK" else "Internal Server Error")) := by
  constructor
  · rfl
  · intro c t r h
    unfold scriptResponse at h
    cases hb : execBody o with
    | none => rw [show (⟨s, o, e⟩ : ProcessOutput).stdout = o from rfl, hb] at h; simp at h
    | some body =>
      rw [show (⟨s, o, e⟩ : ProcessOutput).stdout = o from rfl, hb] at h
      simp only [Option.some.injEq, Prod.mk.injEq] at h
      exact ⟨h.1.symm, h.2.1.symm⟩

/-- C2 witness: the amended status mapping evaluated on the failing
script output. -/
theorem c2_witness :
    ("500" : String) = (if (false : Bool) then "200" else "500") ∧
    ("Internal Server Error" : String) =
      (if (false : Bool) then "OK" else "Internal Server Error") :=
  (c2_amended "HTTP/1.0" false "X: 1\n\nOUT" "ERR" "").2
    "500" "Internal Server Error"
    "HTTP/1.0 500 Internal Server Error\r\nConnection: close\r\nX: 1\r\n\r\nOUT"
    (by decide)

/-! ## Claim C3: POST body and the child's standard input -/

/-- C3 counterexample: for a POST invocation with body `a=1&b=2` the
assembled child invocation carries no stdin payload at all — nothing is
written to the child's standard input. -/
theorem c3_counterexample :
    (build_script_command "/srv/scripts/t.sh" "POST" "/scripts/t.sh" []
        none (some "a=1&b=2")).stdinPayload = none ∧
    (none : Option String) ≠ some "a=1&b=2" := by decide

/-- C3 amended: the request body is never written to the child's standard
input (`Command::output` hands the child a null stdin, and the source
never pipes or writes it); the body reaches the script only through the
parsed `Query_` environment variables. -/
theorem c3_amended (sp m rp : String) (hs : List (String × String)) (qs pd : Option String)
    (rp' : String) (hs' : List (String × String)) :
    (build_script_command sp m rp hs qs pd).stdinPayload = none ∧
    lookupKV (build_script_command sp "POST" rp' hs' none (some "a=1&b=2")).env
      "Query_a" = some "1" ∧
    lookupKV (build_script_command sp "POST" rp' hs' none (some "a=1&b=2")).env
      "Query_b" = some "2" := by
  have haq : ∀ e, addQueryVars e "a=1&b=2" =
      insertKV (insertKV e "Query_a" "1") "Query_b" "2" := fun e => rfl
  refine ⟨rfl, ?_, ?_⟩
  · show lookupKV (buildEnvVars hs' "POST" rp' none (some "a=1&b=2")) "Query_a" = some "1"
    simp only [buildEnvVars, haq, if_true]
    rw [lookup_insert_ne _ _ _ _ (by decide), lookup_insert_self]
  · show lookupKV (buildEnvVars hs' "POST" rp' none (some "a=1&b=2")) "Query_b" = some "2"
    simp only [buildEnvVars, haq, if_true]
    rw [lookup_insert_self]

/-! ## Claim C4: how many body bytes a POST consumes -/

/-- C4 counterexample: a POST with `Content-Length: 4` to an existing,
unforbidden file consumes 8 bytes from the stream — the body is read
twice, not exactly once. -/
theorem c4_counterexample :
    (handle_parsed fsStaticFile "/srv" "POST" "/a.txt" "HTTP/1.0"
        ["Content-Length: 4"] ("12345678".data)).consumed = 8 ∧
    contentLengthOf (parseHeaders ["Content-Length: 4"]) = 4 ∧
    (8 : Nat) ≠ 4 := by decide

/-- C4 amended: a POST whose target exists and is not forbidden reaches a
second `read_exact` of the same Content-Length, so exactly twice the
Content-Length is consumed from the stream (only missing or forbidden
targets stop after the first read). -/
theorem c4_amended (fs : FS) (root full_path http_version : String)
    (hdrLines : List String) (rest : List Char)
    (hex : fs.exists_ (filePathOf root full_path) = true)
    (hforb : is_forbidden_file fs (filePathOf root full_path) root = false)
    (hlen : 2 * contentLengthOf (parseHeaders hdrLines) ≤ rest.length) :
    (handle_parsed fs root "POST" full_path http_version hdrLines rest).consumed =
      2 * contentLengthOf (parseHeaders hdrLines) := by
  have hcl : clOf "POST" hdrLines = contentLengthOf (parseHeaders hdrLines) := by
    simp [clOf]
  have h1 : ¬("POST" = "POST" ∧ rest.length < clOf "POST" hdrLines) := by
    rw [hcl]; rintro ⟨-, hlt⟩; omega
  have h2 : ¬(fs.exists_ (filePathOf root full_path) = false) := by simp [hex]
  have h3 : ¬(is_forbidden_file fs (filePathOf root full_path) root = true) := by
    simp [hforb]
  have h4 : ¬("POST" = "POST" ∧
      (rest.drop (clOf "POST" hdrLines)).length < clOf "POST" hdrLines) := by
    rw [hcl]; rintro ⟨-, hlt⟩; rw [List.length_drop] at hlt; omega
  unfold handle_parsed
  rw [if_neg h1, if_neg h2, if_neg h3, if_neg h4, if_pos (Or.inr rfl), hcl]
  split_ifs <;> (repeat' split) <;> dsimp only [okResult] <;> omega

/-- C4 witness: the doubled read on a concrete POST. -/
theorem c4_witness :
    (handle_parsed fsStaticFile "/srv" "POST" "/b.txt" "HTTP/1.0"
        ["Content-Length: 3"] ("123456".data)).consumed =
      2 * contentLengthOf (parseHeaders ["Content-Length: 3"]) :=
  c4_amended fsStaticFile "/srv" "/b.txt" "HTTP/1.0" ["Content-Length: 3"]
    ("123456".data) (by decide) (by decide) (by decide)

/-! ## Claim C5: methods other than GET and POST -/

/-- C5 counterexample: `DELETE /index.html` against a missing target is
answered 404 (the method gate runs after the existence and forbidden
checks), and against an existing target the 405 response carries a
non-empty HTML body rather than no body. -/
theorem c5_counterexample :
    (handle_parsed fsAllMissing "/srv" "DELETE" "/index.html" "HTTP/1.1" [] []).logged =
      [⟨"DELETE", "/index.html", "404", "Not Found"⟩] ∧
    ("404" : String) ≠ "405" ∧
    (handle_parsed fsStaticFile "/srv" "DELETE" "/index.html" "HTTP/1.1" [] []).written =
      [send_response "HTTP/1.1" "405" "Method Not Allowed" "text/plain"
        "<html>405 Method Not Allowed</html>"] ∧
    ("<html>405 Method Not Allowed</html>" : String) ≠ "" := by decide

/-- C5 amended: a request whose method is neither GET nor POST is
answered 405 Method Not Allowed — with the body
`<html>405 Method Not Allowed</html>` and a log line — only when its
target exists and is not forbidden; missing targets get 404 and forbidden
ones 403 first. -/
theorem c5_amended (fs : FS) (root method full_path http_version : String)
    (hdrLines : List String) (rest : List Char)
    (hg : method ≠ "GET") (hp : method ≠ "POST")
    (hex : fs.exists_ (filePathOf root full_path) = true)
    (hforb : is_forbidden_file fs (filePathOf root full_path) root = false) :
    handle_parsed fs root method full_path http_version hdrLines rest =
      okResult
        [send_response http_version "405" "Method Not Allowed" "text/plain"
          "<html>405 Method Not Allowed</html>"]
        [⟨method, reqPathOf full_path, "405", "Method Not Allowed"⟩] 0 := by
  have h1 : ¬(method = "POST" ∧ rest.length < clOf method hdrLines) :=
    fun hx => hp hx.1
  have h2 : ¬(fs.exists_ (filePathOf root full_path) = false) := by simp [hex]
  have h3 : ¬(is_forbidden_file fs (filePathOf root full_path) root = true) := by
    simp [hforb]
  have h4 : ¬(method = "POST" ∧
      (rest.drop (clOf method hdrLines)).length < clOf method hdrLines) :=
    fun hx => hp hx.1
  have h5 : ¬(method = "GET" ∨ method = "POST") := by
    rintro (h | h)
    · exact hg h
    · exact hp h
  have hcl : clOf method hdrLines = 0 := by simp [clOf, hp]
  unfold handle_parsed
  rw [if_neg h1, if_neg h2, if_neg h3, if_neg h4, if_neg h5, hcl]

/-- C5 witness: a PUT to an existing file is answered 405. -/
theorem c5_witness :
    handle_parsed fsStaticFile "/srv" "PUT" "/c.txt" "HTTP/1.1" [] [] =
      okResult
        [send_response "HTTP/1.1" "405" "Method Not Allowed" "text/plain"
          "<html>405 Method Not Allowed</html>"]
        [⟨"PUT", "/c.txt", "405", "Method Not Allowed"⟩] 0 :=
  c5_amended fsStaticFile "/srv" "PUT" "/c.txt" "HTTP/1.1" [] []
    (by decide) (by decide) (by decide) (by decide)

/-! ## Claim C6: parsing the script's stdout -/

theorem findNN_boundary (Ad Bd : List Char)
    (h : isSubOf ['\n', '\n'] (Ad ++ ['\n']) = false) :
    findNN (Ad ++ '\n' :: '\n' :: Bd) = some Ad.length := by
  induction Ad with
  | nil => simp [findNN]
  | cons c A' ih =>
    have hcond : ¬(c = '\n' ∧ (A' ++ '\n' :: '\n' :: Bd).head? = some '\n') := by
      rintro ⟨hc, hh⟩
      subst hc
      cases A' with
      | nil => simp [isSubOf, isPreOf, List.cons_append] at h
      | cons d A'' =>
        have hd : d = '\n' := by simpa using hh
        subst hd
        simp [isSubOf, isPreOf, List.cons_append] at h
    have h' : isSubOf ['\n', '\n'] (A' ++ ['\n']) = false := by
      cases hx : isSubOf ['\n', '\n'] (A' ++ ['\n']) with
      | false => rfl
      | true =>
        exfalso
        have h2 := sub_cons c hx
        rw [List.cons_append] at h
        exact absurd (h.symm.trans h2) (by decide)
    rw [List.cons_append]
    simp only [findNN]
    rw [if_neg hcond, ih h']
    simp

theorem takeWhile_before_blank (H T : List String) (h : ¬ "" ∈ H) :
    List.takeWhile (fun l => l ≠ "") (H ++ "" :: T) = H := by
  induction H with
  | nil =>
    show List.takeWhile (fun l => l ≠ "") ("" :: T) = []
    rw [List.takeWhile_cons]
    simp
  | cons a H' ih =>
    have ha : a ≠ "" := fun he => h (by simp [he])
    have h' : ¬ "" ∈ H' := fun hm => h (by simp [hm])
    show List.takeWhile (fun l => l ≠ "") (a :: (H' ++ "" :: T)) = a :: H'
    rw [List.takeWhile_cons, if_pos (by simpa using ha), ih h']

theorem takeWhile_no_blank (l : List String) (h : ¬ "" ∈ l) :
    List.takeWhile (fun x => x ≠ "") l = l := by
  induction l with
  | nil => rfl
  | cons a t ih =>
    have ha : a ≠ "" := fun he => h (by simp [he])
    have h' : ¬ "" ∈ t := fun hm => h (by simp [hm])
    rw [List.takeWhile_cons, if_pos (by simpa using ha), ih h']

/-- C6 counterexample: a script whose stdout is `"hello"` (no blank line)
does not get the whole stdout as body and no added headers — the line
`hello` is pushed as a response header and the body is the stdout with
its first two bytes cut off. -/
theorem c6_counterexample :
    execHeaderLines "hello" = ["hello"] ∧
    execBody "hello" = some "llo" ∧
    (["hello"] : List String) ≠ [] ∧
    some ("llo" : String) ≠ some "hello" := by decide

/-- C6 amended: when stdout contains `\n\n`, the lines before the first
blank line become headers and everything after the first `\n\n` becomes
the body (as claimed); when it contains no `\n\n`, every line before the
first empty line is still pushed as a header (all lines, when none is
empty) and the body is stdout with its first two bytes dropped — the
slice panics when stdout is shorter than two bytes. -/
theorem c6_amended (out : ProcessOutput) :
    (∀ A B : String, out.stdout = A ++ "\n\n" ++ B →
        strContains (A ++ "\n") "\n\n" = false → execBody out.stdout = some B) ∧
    (∀ H T : List String, rustLines out.stdout = H ++ "" :: T → ¬ "" ∈ H →
        execHeaderLines out.stdout = H) ∧
    (findNN out.stdout.data = none → 2 ≤ out.stdout.length →
        execBody out.stdout = some (String.mk (out.stdout.data.drop 2))) ∧
    (¬ "" ∈ rustLines out.stdout → execHeaderLines out.stdout = rustLines out.stdout) := by
  refine ⟨?_, ?_, ?_, ?_⟩
  · intro A B h1 h2
    have hdata : out.stdout.data = A.data ++ '\n' :: '\n' :: B.data := by
      rw [h1]
      show (A.data ++ ['\n', '\n']) ++ B.data = _
      exact List.append_assoc A.data ['\n', '\n'] B.data
    have hsub : isSubOf ['\n', '\n'] (A.data ++ ['\n']) = false := h2
    have hf : findNN out.stdout.data = some A.data.length := by
      rw [hdata]; exact findNN_boundary A.data B.data hsub
    have hlen : A.data.length + 2 ≤ out.stdout.data.length := by
      rw [hdata]; simp [List.length_append]
    simp only [execBody, hf, Option.getD_some]
    rw [if_pos hlen]
    congr 1
    rw [hdata]
    rw [show A.data ++ '\n' :: '\n' :: B.data = (A.data ++ ['\n', '\n']) ++ B.data from
      (List.append_assoc A.data ['\n', '\n'] B.data).symm]
    rw [show A.data.length + 2 = (A.data ++ ['\n', '\n']).length by simp]
    rw [List.drop_left]
  · intro H T h1 h2
    unfold execHeaderLines
    rw [h1]
    exact takeWhile_before_blank H T h2
  · intro h1 h2
    have hl : out.stdout.data.length = out.stdout.length := rfl
    simp only [execBody, h1, Option.getD_none]
    rw [if_pos (by omega)]
  · intro h1
    unfold execHeaderLines
    exact takeWhile_no_blank _ h1

/-- C6 witness: a stdout with a blank line splits into header and body at
the first `\n\n`. -/
theorem c6_witness : execBody "X: 1\n\nhi" = some "hi" :=
  (c6_amended ⟨true, "X: 1\n\nhi", ""⟩).1 "X: 1" "hi" (by decide) (by decide)

/-! ## Claim C7: the directory listing -/

/-- The anchor the listing emits for one entry: href is the entry's path
relative to the root, the link text is the entry's name — no slash suffix
for directories and no parent entry. -/
def anchorFor (dirPath root : String) (e : DirEntry) : String :=
  "<li><a href=\"" ++ stripRootRel (pathJoin dirPath e.name) root ++ "\">" ++
    e.name ++ "</a></li>"

def concatStr (f : DirEntry → String) : List DirEntry → String
  | [] => ""
  | e :: es => f e ++ concatStr f es

theorem foldl_concatStr (f : DirEntry → String) (l : List DirEntry) (s : String) :
    l.foldl (fun acc e => acc ++ f e) s = s ++ concatStr f l := by
  induction l generalizing s with
  | nil => simp [concatStr, strAppendNil]
  | cons e es ih =>
    simp only [List.foldl_cons, concatStr]
    rw [ih, strAssoc]

/-- C7 counterexample: a directory with one subdirectory child produces an
anchor without the `/` suffix on href or text, and the listing contains no
`..` parent entry at all. -/
theorem c7_counterexample :
    generate_directory_listing [⟨"sub", true⟩] "/srv/d" "/srv" =
      "<html><body><h1>Directory listing</h1><ul><li><a href=\"d/sub\">sub</a></li></ul></body></html>" ∧
    strContains
      "<html><body><h1>Directory listing</h1><ul><li><a href=\"d/sub\">sub</a></li></ul></body></html>"
      "sub/" = false ∧
    strContains
      "<html><body><h1>Directory listing</h1><ul><li><a href=\"d/sub\">sub</a></li></ul></body></html>"
      ".." = false := by decide

/-- C7 amended: the listing is exactly one anchor per direct child, whose
href is the child's path relative to the root folder and whose text is the
child's name — with no `/` suffix for directories and no `..`
parent-navigation entry. -/
theorem c7_amended (entries : List DirEntry) (dirPath root : String) :
    generate_directory_listing entries dirPath root =
      "<html><body><h1>Directory listing</h1><ul>" ++
        concatStr (anchorFor dirPath root) entries ++ "</ul></body></html>" := by
  unfold generate_directory_listing
  have hfun : (fun (html : String) (e : DirEntry) =>
      html ++ "<li><a href=\"" ++ stripRootRel (pathJoin dirPath e.name) root ++ "\">" ++
        e.name ++ "</a></li>") =
      fun (html : String) (e : DirEntry) => html ++ anchorFor dirPath root e := by
    funext html e
    simp only [anchorFor, strAssoc]
  rw [hfun, foldl_concatStr]

/-! ## Claim C8: response header invariants -/

/-- The chunk list written for one request either is empty or holds a
chunk carrying the `Connection: close` header. -/
def goodWritten (ws : List String) : Prop :=
  ws = [] ∨ ∃ w ∈ ws, strContains w "Connection: close" = true

theorem close_in_handle (fs : FS) (root method full_path http_version : String)
    (hdrLines : List String) (rest : List Char) :
    goodWritten (handle_parsed fs root method full_path http_version hdrLines rest).written := by
  unfold goodWritten handle_parsed
  by_cases hA : method = "POST" ∧ rest.length < clOf method hdrLines
  · rw [if_pos hA]; left; rfl
  · rw [if_neg hA]
    by_cases hB : fs.exists_ (filePathOf root full_path) = false
    · rw [if_pos hB]
      right; exact ⟨_, List.mem_cons_self _ _, send_response_contains_close _ _ _ _ _⟩
    · rw [if_neg hB]
      by_cases hC : is_forbidden_file fs (filePathOf root full_path) root = true
      · rw [if_pos hC]
        right; exact ⟨_, List.mem_cons_self _ _, send_response_contains_close _ _ _ _ _⟩
      · rw [if_neg hC]
        by_cases hD : method = "POST" ∧
            (List.drop (clOf method hdrLines) rest).length < clOf method hdrLines
        · rw [if_pos hD]; left; rfl
        · rw [if_neg hD]
          by_cases hE : method = "GET" ∨ method = "POST"
          · rw [if_pos hE]
            by_cases hF : pathStartsWith (filePathOf root full_path)
                (pathJoin root "forbidden") = true
            · rw [if_pos hF]
              right; exact ⟨_, List.mem_cons_self _ _, send_response_contains_close _ _ _ _ _⟩
            · rw [if_neg hF]
              by_cases hG : pathStartsWith (filePathOf root full_path)
                  (pathJoin root "scripts") = true ∧ fs.isFile (filePathOf root full_path) = true
              · rw [if_pos hG]
                cases hrs : fs.runScript (filePathOf root full_path) with
                | none =>
                  right
                  exact ⟨_, List.mem_cons_self _ _, send_response_contains_close _ _ _ _ _⟩
                | some out =>
                  dsimp only
                  cases hsr : scriptResponse http_version out with
                  | none => left; rfl
                  | some trip =>
                    obtain ⟨c, t, r⟩ := trip
                    right
                    exact ⟨r, List.mem_cons_self _ _, scriptResponse_contains_close hsr⟩
              · rw [if_neg hG]
                by_cases hH : fs.isDir (filePathOf root full_path) = true
                · rw [if_pos hH]
                  cases fs.readDir (filePathOf root full_path) with
                  | none =>
                    right
                    exact ⟨_, List.mem_cons_self _ _, send_response_contains_close _ _ _ _ _⟩
                  | some entries =>
                    right
                    exact ⟨_, List.mem_cons_self _ _, send_response_contains_close _ _ _ _ _⟩
                · rw [if_neg hH]
                  by_cases hI : fs.exists_ (filePathOf root full_path) = true ∧
                      fs.isFile (filePathOf root full_path) = true
                  · rw [if_pos hI]
                    cases fs.readFile (filePathOf root full_path) with
                    | none =>
                      right
                      exact ⟨_, List.mem_cons_self _ _, send_response_contains_close _ _ _ _ _⟩
                    | some contents =>
                      right
                      exact ⟨_, List.mem_cons_self _ _, static_header_contains_close _ _ _⟩
                  · rw [if_neg hI]
                    right
                    exact ⟨_, List.mem_cons_self _ _, send_response_contains_close _ _ _ _ _⟩
          · rw [if_neg hE]
            right; exact ⟨_, List.mem_cons_self _ _, send_response_contains_close _ _ _ _ _⟩

/-- C8 counterexample: a script answering `"\n\nhi"` on stdout yields a
200 response whose body `hi` is non-empty while the response carries
neither a `Content-Length` nor a `Content-Type` header — script responses
carry only the script's own header lines after `Connection: close`. -/
theorem c8_counterexample :
    scriptResponse "HTTP/1.0" ⟨true, "\n\nhi", ""⟩ =
      some ("200", "OK", "HTTP/1.0 200 OK\r\nConnection: close\r\n\r\nhi") ∧
    strContains "HTTP/1.0 200 OK\r\nConnection: close\r\n\r\nhi" "Content-Length" = false ∧
    strContains "HTTP/1.0 200 OK\r\nConnection: close\r\n\r\nhi" "Content-Type" = false ∧
    ("hi" : String) ≠ "" := by decide

/-- C8 amended: every chunk sequence the dispatch writes contains the
`Connection: close` header (or nothing is written at all), and every
`send_response` body carries a `Content-Length` equal to the body's byte
length; script responses however carry only the headers the script itself
emitted, which may include neither `Content-Length` nor `Content-Type`. -/
theorem c8_amended (fs : FS) (root method full_path http_version : String)
    (hdrLines : List String) (rest : List Char) (v c t ct b : String) :
    goodWritten (handle_parsed fs root method full_path http_version hdrLines rest).written ∧
    strContains (send_response v c t ct b) "Connection: close" = true ∧
    strContains (send_response v c t ct b)
      ("Content-Length: " ++ toString b.length ++ "\r\n") = true :=
  ⟨close_in_handle fs root method full_path http_version hdrLines rest,
   send_response_contains_close v c t ct b,
   send_response_contains_len v c t ct b⟩

/-! ## Claim C9: the MIME table -/

/-- C9 counterexample: `.gif` is not in the source's table and falls to
the default, not `image/gif`. -/
theorem c9_counterexample :
    get_mime_type "/srv/a.gif" = "application/octet-stream" ∧
    ("application/octet-stream" : String) ≠ "image/gif" := by decide

/-- C9 amended: the resolver maps `.html`, `.css`, `.js` and `.txt` to
their text types with a `; charset=utf-8` parameter, `.jpg`/`.jpeg`,
`.png` and `.zip` to their binary types, and everything else — including
`.htm`, `.json`, `.gif` and a missing extension — to
`application/octet-stream`. -/
theorem c9_amended (p : String) :
    (extension p = some "html" → get_mime_type p = "text/html; charset=utf-8") ∧
    (extension p = some "htm" → get_mime_type p = "application/octet-stream") ∧
    (extension p = some "css" → get_mime_type p = "text/css; charset=utf-8") ∧
    (extension p = some "js" → get_mime_type p = "text/javascript; charset=utf-8") ∧
    (extension p = some "txt" → get_mime_type p = "text/plain; charset=utf-8") ∧
    (extension p = some "json" → get_mime_type p = "application/octet-stream") ∧
    (extension p = some "jpg" → get_mime_type p = "image/jpeg") ∧
    (extension p = some "jpeg" → get_mime_type p = "image/jpeg") ∧
    (extension p = some "png" → get_mime_type p = "image/png") ∧
    (extension p = some "gif" → get_mime_type p = "application/octet-stream") ∧
    (extension p = some "zip" → get_mime_type p = "application/zip") ∧
    (extension p = none → get_mime_type p = "application/octet-stream") := by
  refine ⟨?_, ?_, ?_, ?_, ?_, ?_, ?_, ?_, ?_, ?_, ?_, ?_⟩ <;>
    (intro h; simp [get_mime_type, h])

/-- C9 witness: the `.gif` row of the amended table on a concrete path. -/
theorem c9_witness : get_mime_type "x.gif" = "application/octet-stream" :=
  (c9_amended "x.gif").2.2.2.2.2.2.2.2.2.1 (by decide)

/-! ## Claim C10: silent return on empty or undecodable first read -/

/-- C10: a connection whose first read yields zero bytes, or whose buffer
is not valid UTF-8 (decoded to the empty string by `unwrap_or`), makes
the handler return successfully with no response bytes written, no bytes
consumed and no log line emitted. -/
theorem c10_silent_return (fs : FS) (root : String) (firstReadLen : Nat)
    (decoded : Option String) (rest : List Char)
    (h : firstReadLen = 0 ∨ decoded = none) :
    handle_request fs root firstReadLen decoded rest = ⟨[], [], 0, false, false⟩ := by
  rcases h with h | h
  · simp [handle_request, h]
  · subst h
    have hrl : rustLines ((none : Option String).getD "") = [] := rfl
    unfold handle_request
    rw [hrl]
    split_ifs <;> rfl

/-- C10 witness: the zero-byte first read on a concrete filesystem. -/
theorem c10_witness :
    handle_request fsAllMissing "/srv" 0 (some "GET / HTTP/1.0") [] =
      ⟨[], [], 0, false, false⟩ :=
  c10_silent_return fsAllMissing "/srv" 0 (some "GET / HTTP/1.0") [] (Or.inl rfl)

end RustyWeb
